import Mathlib

/-
Verification of the publish/submodule-synchronization workflow of the blog
repository (fabfile.py, pelicanconf.py, publishconf.py, tasks.py).

The embedding is shallow: each Python/git operation used by the claims is
translated into an executable Lean definition over explicit state, and the
theorems below settle the spec claims against those definitions.
-/

namespace Blog

/-! ## Path model

fabfile.py compares paths with os.path.normpath on both sides:

  any(normpath(x.abspath) == normpath(output_path) for x in repo.submodules)

where output_path = full_path(generated_path) and
full_path(x) = os.path.join(blog_path, x), and a submodule's abspath is
os.path.join(repo.working_tree_dir, submodule.path).

A POSIX path is modelled as an absolute-flag plus the list of components
obtained by splitting on the separator; an empty component stands for a
repeated or trailing slash, exactly as in Python's split-based normpath. -/

structure PyPath where
  absolute : Bool
  comps : List String
deriving DecidableEq, Repr

/-- One step of Python's os.path.normpath component loop (posixpath.normpath):
empty and "." components are dropped, ".." pops the previous component unless
the path is relative and nothing precedes it (or the previous component is
itself a ".."), and a ".." at the root of an absolute path is dropped. -/
def normFold (isAbs : Bool) (acc : List String) (c : String) : List String :=
  if c = "" ∨ c = "." then acc
  else if c ≠ ".." then acc ++ [c]
  else if ¬ isAbs ∧ acc = [] then acc ++ [c]
  else if acc.getLast? = some ".." then acc ++ [c]
  else acc.dropLast

/-- os.path.normpath, modelled on path components. -/
def normpath (p : PyPath) : PyPath :=
  ⟨p.absolute, p.comps.foldl (normFold p.absolute) []⟩

/-- os.path.join for two paths: an absolute second argument discards the
first; otherwise the components are concatenated. -/
def pyJoin (a b : PyPath) : PyPath :=
  if b.absolute then b else ⟨a.absolute, a.comps ++ b.comps⟩

/-- fabfile.full_path: join the given path onto the blog directory. -/
def full_path (blog : PyPath) (x : PyPath) : PyPath := pyJoin blog x

/-- The submodule-membership test of fabfile.clean: some registered
submodule's absolute path (joined onto the parent working tree, as GitPython
computes Submodule.abspath) equals the resolved output path, both sides sent
through normpath. -/
def isSubmoduleTest (blog : PyPath) (subs : List PyPath) (p : PyPath) : Bool :=
  subs.any (fun sp => normpath (pyJoin blog sp) = normpath (full_path blog p))

/-- Modelled from the spec: POSIX realpath restricted to a single symbolic
link, used only to state what "symlink differences" means in the claim about
the path comparison.  A path whose normalized absolute form starts with the
link's source components denotes the file reached through the link's target;
fabfile itself never resolves symlinks on the compared paths. -/
def realpath1 (src dst : List String) (p : PyPath) : PyPath :=
  let n := normpath p
  if src.isPrefixOf n.comps
  then ⟨n.absolute, dst ++ n.comps.drop src.length⟩
  else n

/-! ## Configuration constants

pelicanconf.py line 50: OUTPUT_PATH = 'output/'.
publishconf.py does `from pelicanconf import *` and defines
SUBMODULE_NAME = 'output'; it does not redefine OUTPUT_PATH, so
publishconf.OUTPUT_PATH is pelicanconf's 'output/'. -/

def pelicanconf_OUTPUT_PATH : String := "output/"

def publishconf_OUTPUT_PATH : String := pelicanconf_OUTPUT_PATH

def publishconf_SUBMODULE_NAME : String := "output"

/-- 'output/' as a path value: one component "output" and the trailing
slash's empty component. -/
def outputPathP : PyPath := ⟨false, ["output", ""]⟩

/-! ## Output repository state

State of the output git repository as seen by push_changes and by the
reset/clean body of fabfile.clean.  A tree is an association list from file
name to content; headTree is the tree of the HEAD commit, index the staged
snapshot, working the files present in the working tree. -/

abbrev Tree := List (String × String)

/-- First-match lookup in an association list (the mapping a git tree or
index denotes). -/
def lookupT : Tree → String → Option String
  | [], _ => none
  | f :: t, n => if f.1 = n then some f.2 else lookupT t n

structure ORepo where
  headTree : Tree
  index : Tree
  working : Tree
  commitCount : Nat
  remoteMaster : Tree
deriving DecidableEq, Repr

/-- Working-tree files absent from the index. -/
def untrackedL (w idx : Tree) : List String :=
  (w.filter (fun f => (lookupT idx f.1).isNone)).map Prod.fst

/-- GitPython Repo.untracked_files. -/
def untracked_files (r : ORepo) : List String :=
  untrackedL r.working r.index

inductive ChangeType
  | M
  | D
deriving DecidableEq, Repr

/-- The index diffed against the working tree.  An index entry whose file is
missing from the working tree is a deletion (change_type D); one whose
working copy differs is a modification (change_type M).  Untracked files do
not appear. -/
def diffIW (idx w : Tree) : List (String × ChangeType) :=
  idx.filterMap (fun f =>
    match lookupT w f.1 with
    | none => some (f.1, ChangeType.D)
    | some c => if c ≠ f.2 then some (f.1, ChangeType.M) else none)

/-- GitPython IndexFile.diff(None). -/
def diffIndexWorking (r : ORepo) : List (String × ChangeType) :=
  diffIW r.index r.working

/-- Whether two trees differ as mappings (git diff --cached between HEAD and
the index is nonempty). -/
def treesDiffer (a b : Tree) : Bool :=
  ((a.map Prod.fst) ++ (b.map Prod.fst)).any (fun n => lookupT a n ≠ lookupT b n)

/-- GitPython Repo.is_dirty() with its default arguments (index=True,
working_tree=True, untracked_files=False): staged changes or
index-versus-working-tree changes count, untracked files do not. -/
def is_dirty (r : ORepo) : Bool :=
  treesDiffer r.headTree r.index || !(diffIndexWorking r).isEmpty

/-- Replace the entry for n in an association list, or append it. -/
def upsert (t : Tree) (n c : String) : Tree :=
  if (lookupT t n).isSome
  then t.map (fun f => if f.1 = n then (n, c) else f)
  else t ++ [(n, c)]

/-- IndexFile.add over a list of paths: each named file's working-tree
content is staged; a path with no working-tree file stages nothing. -/
def stageAll (w : Tree) (idx : Tree) : List String → Tree
  | [] => idx
  | n :: rest =>
    stageAll w
      (match lookupT w n with
       | some c => upsert idx n c
       | none => idx) rest

/-- The a_paths handed to the second index.add of push_changes: the M-typed
entries of index.diff(None), recomputed after the untracked files were
staged. -/
def stagedModifiedList (r : ORepo) : List String :=
  (diffIW (stageAll r.working r.index (untracked_files r)) r.working).filterMap
    (fun e => if e.2 = ChangeType.M then some e.1 else none)

/-- The index after push_changes' two index.add calls: first the untracked
files, then the modified (M) paths. -/
def stagedIndex (r : ORepo) : Tree :=
  stageAll r.working (stageAll r.working r.index (untracked_files r))
    (stagedModifiedList r)

/-- git commit run by fabric local(): commits the staged index as a new
HEAD; with nothing staged git exits nonzero and local() aborts the run
(modelled as none). -/
def gitCommit (r : ORepo) : Option ORepo :=
  if treesDiffer r.headTree r.index
  then some { r with headTree := r.index, commitCount := r.commitCount + 1 }
  else none

inductive PAct
  | stagedUntracked (ns : List String)
  | stagedModified (ns : List String)
  | commit
  | push
  | infoNoChanges
deriving DecidableEq, Repr

/-- fabfile.push_changes: if the output repository is_dirty(), stage the
untracked files, then stage the a_paths of the M-typed entries of
index.diff(None) (recomputed after the first add), commit, and push HEAD to
origin/master; otherwise log "No changes made to the blog!". -/
def push_changes (r : ORepo) : Option (ORepo × List PAct) :=
  if is_dirty r then
    match gitCommit { r with index := stagedIndex r } with
    | none => none
    | some r3 =>
      some ({ r3 with remoteMaster := r3.headTree },
        [PAct.stagedUntracked (untracked_files r),
         PAct.stagedModified (stagedModifiedList r),
         PAct.commit, PAct.push])
  else
    some (r, [PAct.infoNoChanges])

/-- output_repo.head.reset(working_tree=True, hard=True): the index and
every tracked file of the working tree are set back to HEAD (files staged
but absent from HEAD are removed); untracked files are left in place. -/
def resetHard (r : ORepo) : ORepo :=
  { r with
    index := r.headTree,
    working := r.headTree ++ r.working.filter
      (fun f => (lookupT r.headTree f.1).isNone && (lookupT r.index f.1).isNone) }

/-- output_repo.git.clean("-f"): untracked files are removed from the
working tree. -/
def gitCleanF (r : ORepo) : ORepo :=
  { r with working := r.working.filter (fun f => (lookupT r.index f.1).isSome) }

/-- The body of fabfile.clean's submodule branch when a repository exists at
the output path: hard reset, then clean -f. -/
def cleanSubmoduleBody (r : ORepo) : ORepo :=
  gitCleanF (resetHard r)

/-! ## Parent/submodule synchronization state (fabfile.update_submodule)

Commits are identified by numbers.  remoteMasterC is the commit at the
output repository's origin/master; outputHead the commit checked out in the
output submodule (which is what the parent's working tree shows for the
output path); parentIndexPtr the submodule pointer staged in the parent's
index; parentCommits counts commits made in the parent repository. -/

structure SyncState where
  remoteMasterC : Nat
  outputHead : Nat
  parentIndexPtr : Nat
  parentCommits : Nat
deriving DecidableEq, Repr

/-- fabfile.update_submodule: pull origin master into the output repository
(fast-forwarding its HEAD to the remote commit); then, if the parent's
index.diff(None) has an entry whose a_path normalizes to the output path —
i.e. the staged submodule pointer differs from the checked-out one — git add
the output path and commit in the parent. -/
def update_submodule (s : SyncState) : SyncState :=
  let s1 : SyncState := { s with outputHead := s.remoteMasterC }
  if s1.parentIndexPtr ≠ s1.outputHead then
    { s1 with
      parentIndexPtr := s1.outputHead,
      parentCommits := s1.parentCommits + 1 }
  else s1

/-! ## Submodule existence (fabfile.create_submodule) -/

structure SubState where
  registered : Bool
  moduleExists : Bool
  checkedOut : Nat
  recorded : Nat
deriving DecidableEq, Repr

inductive SubAct
  | register
  | submoduleUpdateInit
deriving DecidableEq, Repr

/-- fabfile.create_submodule: repo.submodule(SUBMODULE_NAME) raises
ValueError when no submodule of that name is registered (modelled as none);
otherwise, if module_exists() is false the submodule is created/registered,
and in all surviving cases repo.submodule_update(init=True) checks the
submodule out at its recorded commit. -/
def create_submodule (s : SubState) : Option (SubState × List SubAct) :=
  if s.registered = false then none
  else
    let step :=
      if s.moduleExists = false
      then ({ s with moduleExists := true }, [SubAct.register])
      else (s, ([] : List SubAct))
    some ({ step.1 with checkedOut := step.1.recorded },
      step.2 ++ [SubAct.submoduleUpdateInit])

/-! ## Orchestration (fabfile.publish)

The publish sequence is modelled as a trace of external actions together
with an optional uncaught Python exception; each primitive operation's
outcome is injected through an environment record.  Fabric's local() aborts
the run on a failing command, and GitPython calls raise, so a failing
operation stops the sequence. -/

inductive PyErr
  | noSuchPath
  | invalidGitRepository
  | gitCommandError
  | ioError
  | valueError
deriving DecidableEq, Repr

inductive Act
  | openOutputRepo
  | gitResetHard
  | gitCleanF
  | mkdirOutput
  | gitSubmoduleUpdateInit
  | rmRf (dir : String)
  | registerSubmodule
  | submoduleUpdate
  | pullOriginMaster
  | gitAddOutput
  | parentCommit
  | pelicanBuild (config : String)
  | stageFiles
  | outputCommit
  | pushOriginMaster
  | infoNoChanges
deriving DecidableEq, Repr

/-- A run's result: the actions performed, and the uncaught exception if one
was raised. -/
abbrev Res := List Act × Option PyErr

/-- One primitive operation: on success it performs its action, on failure
it raises. -/
def opA (a : Act) (e : Option PyErr) : Res :=
  match e with
  | none => ([a], none)
  | some err => ([], some err)

/-- Sequential composition: the second computation runs only when the first
raised nothing. -/
def andThen (x y : Res) : Res :=
  match x with
  | (as, none) => (as ++ y.1, y.2)
  | (as, some e) => (as, some e)

structure Env where
  repoOpenErr : Option PyErr
  resetErr : Option PyErr
  cleanFErr : Option PyErr
  mkdirErr : Option PyErr
  subInitErr : Option PyErr
  rmRfErr : Option PyErr
  registered : Bool
  moduleExists : Bool
  registerErr : Option PyErr
  subUpdateErr : Option PyErr
  pullErr1 : Option PyErr
  parentDiff1 : Bool
  parentCommitErr1 : Option PyErr
  buildErr : Option PyErr
  outputDirty : Bool
  outputCommitErr : Option PyErr
  pushErr : Option PyErr
  pullErr2 : Option PyErr
  parentDiff2 : Bool
  parentCommitErr2 : Option PyErr
deriving DecidableEq, Repr

/-- The try block of fabfile.clean's submodule branch: Repo(output_path),
head.reset(working_tree=True, hard=True), git.clean("-f"). -/
def tryBody (env : Env) : Res :=
  andThen (opA Act.openOutputRepo env.repoOpenErr)
    (andThen (opA Act.gitResetHard env.resetErr)
      (opA Act.gitCleanF env.cleanFErr))

/-- The except NoSuchPathError handler: os.mkdir(generated_path) and
local("git submodule update --init"). -/
def exceptHandler (env : Env) : Res :=
  andThen (opA Act.mkdirOutput env.mkdirErr)
    (opA Act.gitSubmoduleUpdateInit env.subInitErr)

/-- fabfile.clean: if the resolved generated_path matches a registered
submodule's path, run the try block, handling only NoSuchPathError with the
mkdir/submodule-update handler and re-raising anything else; otherwise run
local("rm -rf {pelicanconf.OUTPUT_PATH}") — note the deletion target is the
OUTPUT_PATH constant, not generated_path. -/
def cleanStep (blog : PyPath) (subs : List PyPath) (p : PyPath) (env : Env) : Res :=
  if isSubmoduleTest blog subs p then
    match tryBody env with
    | (as, none) => (as, none)
    | (as, some e) =>
      if e = PyErr.noSuchPath
      then andThen (as, none) (exceptHandler env)
      else (as, some e)
  else
    opA (Act.rmRf pelicanconf_OUTPUT_PATH) env.rmRfErr

/-- fabfile.create_submodule as a traced step. -/
def create_submodule_step (env : Env) : Res :=
  if env.registered = false then ([], some PyErr.valueError)
  else
    andThen
      (if env.moduleExists then ([], none)
       else opA Act.registerSubmodule env.registerErr)
      (opA Act.submoduleUpdate env.subUpdateErr)

/-- fabfile.update_submodule as a traced step. -/
def update_submodule_step (pullErr : Option PyErr) (diff : Bool)
    (commitErr : Option PyErr) : Res :=
  andThen (opA Act.pullOriginMaster pullErr)
    (if diff
     then andThen (opA Act.gitAddOutput none) (opA Act.parentCommit commitErr)
     else ([], none))

/-- fabfile.preview: local("pelican -s publishconf.py"). -/
def preview_step (env : Env) : Res :=
  opA (Act.pelicanBuild "publishconf.py") env.buildErr

/-- fabfile.push_changes as a traced step. -/
def push_changes_step (env : Env) : Res :=
  if env.outputDirty then
    andThen (opA Act.stageFiles none)
      (andThen (opA Act.outputCommit env.outputCommitErr)
        (opA Act.pushOriginMaster env.pushErr))
  else ([Act.infoNoChanges], none)

/-- fabfile.publish: clean(generated_path=publishconf.OUTPUT_PATH),
create_submodule(), update_submodule(), preview(), push_changes(),
update_submodule(). -/
def publishRun (blog : PyPath) (subs : List PyPath) (env : Env) : Res :=
  andThen (cleanStep blog subs outputPathP env)
    (andThen (create_submodule_step env)
      (andThen (update_submodule_step env.pullErr1 env.parentDiff1 env.parentCommitErr1)
        (andThen (preview_step env)
          (andThen (push_changes_step env)
            (update_submodule_step env.pullErr2 env.parentDiff2 env.parentCommitErr2)))))

/-! ## Filesystem effect of the traced actions, at directory granularity. -/

/-- A filesystem maps a directory name to the list of files it holds, none
meaning the directory is absent.  rm -rf removes the directory; os.mkdir
creates it empty; a pelican build (re)creates the output directory with the
generated files gen. -/
def applyAct (gen : List String) (fs : String → Option (List String)) :
    Act → String → Option (List String)
  | Act.rmRf dir => fun d => if d = dir then none else fs d
  | Act.mkdirOutput => fun d =>
      if d = pelicanconf_OUTPUT_PATH then some [] else fs d
  | Act.pelicanBuild _ => fun d =>
      if d = pelicanconf_OUTPUT_PATH then some gen else fs d
  | _ => fs

def applyTrace (gen : List String) (fs : String → Option (List String)) :
    List Act → String → Option (List String)
  | [] => fs
  | a :: rest => applyTrace gen (applyAct gen fs a) rest

/-- tasks.py clean: if deploy_path ('output') is a directory, rmtree it and
recreate it empty. -/
def tasks_deploy_path : String := "output"

def tasks_clean (fs : String → Option (List String)) :
    String → Option (List String) :=
  fun d =>
    if (fs tasks_deploy_path).isSome && (d = tasks_deploy_path)
    then some []
    else fs d

/-- Which traced actions are git operations (as opposed to plain filesystem
or logging operations). -/
def isGitAct : Act → Bool
  | Act.rmRf _ => false
  | Act.mkdirOutput => false
  | Act.pelicanBuild _ => false
  | Act.infoNoChanges => false
  | _ => true

/-! ## Concrete states used by the scenario evaluations -/

/-- Scenario C of the spec: the output repository holds one untracked file
new.html and is otherwise clean (index, HEAD tree and tracked working files
all agree). -/
def scenarioC : ORepo :=
  { headTree := [("index.html", "old")],
    index := [("index.html", "old")],
    working := [("index.html", "old"), ("new.html", "fresh")],
    commitCount := 0,
    remoteMaster := [("index.html", "old")] }

/-- Scenario D of the spec, made committable: old.html is tracked but
deleted from the working tree, and new.html is untracked (so the commit has
something staged). -/
def scenarioD : ORepo :=
  { headTree := [("old.html", "a"), ("page.html", "b")],
    index := [("old.html", "a"), ("page.html", "b")],
    working := [("page.html", "b"), ("new.html", "x")],
    commitCount := 0,
    remoteMaster := [("old.html", "a"), ("page.html", "b")] }

/-- The state push_changes produces from scenarioD: new.html staged and
committed, the deletion of old.html neither staged nor committed. -/
def scenarioDPushed : ORepo :=
  { headTree := [("old.html", "a"), ("page.html", "b"), ("new.html", "x")],
    index := [("old.html", "a"), ("page.html", "b"), ("new.html", "x")],
    working := [("page.html", "b"), ("new.html", "x")],
    commitCount := 1,
    remoteMaster := [("old.html", "a"), ("page.html", "b"), ("new.html", "x")] }

/-- Scenario B of the spec: the output submodule has an uncommitted edit to
index.html and an untracked file stray.html. -/
def scenarioB : ORepo :=
  { headTree := [("index.html", "committed")],
    index := [("index.html", "committed")],
    working := [("index.html", "edited"), ("stray.html", "junk")],
    commitCount := 3,
    remoteMaster := [("index.html", "committed")] }

/-- A blog directory /blog. -/
def blogP : PyPath := ⟨true, ["blog"]⟩

/-- One registered submodule at relative path "output". -/
def subsP : List PyPath := [⟨false, ["output"]⟩]

/-- A symbolic link /blog/out_link -> /blog/output. -/
def linkSrc : List String := ["blog", "out_link"]

def linkDst : List String := ["blog", "output"]

def pOut : PyPath := ⟨false, ["output"]⟩

def pLink : PyPath := ⟨false, ["out_link"]⟩

/-- A non-output relative path "site/". -/
def pSite : PyPath := ⟨false, ["site", ""]⟩

/-- An environment in which every external operation succeeds. -/
def envOk : Env :=
  { repoOpenErr := none, resetErr := none, cleanFErr := none,
    mkdirErr := none, subInitErr := none, rmRfErr := none,
    registered := true, moduleExists := true, registerErr := none,
    subUpdateErr := none, pullErr1 := none, parentDiff1 := false,
    parentCommitErr1 := none, buildErr := none, outputDirty := true,
    outputCommitErr := none, pushErr := none, pullErr2 := none,
    parentDiff2 := true, parentCommitErr2 := none }

/-- An environment in which the hard reset inside clean's try block raises a
git-command error. -/
def envResetFail : Env :=
  { envOk with resetErr := some PyErr.gitCommandError }

/-- A registered, materialized, up-to-date submodule state. -/
def subOk : SubState :=
  { registered := true, moduleExists := true, checkedOut := 7, recorded := 7 }

/-- Scenario A's plain filesystem: the output directory holds a.html and
b.html. -/
def fsA : String → Option (List String) :=
  fun d =>
    if d = pelicanconf_OUTPUT_PATH || d = tasks_deploy_path
    then some ["a.html", "b.html"]
    else none

/-- All error slots of the publish environment are unset and the submodule
is registered: every external operation of the publish sequence succeeds. -/
def envAllOk (env : Env) : Prop :=
  env.repoOpenErr = none ∧ env.resetErr = none ∧ env.cleanFErr = none ∧
  env.rmRfErr = none ∧ env.registered = true ∧ env.registerErr = none ∧
  env.subUpdateErr = none ∧ env.pullErr1 = none ∧ env.parentCommitErr1 = none ∧
  env.buildErr = none ∧ env.outputCommitErr = none ∧ env.pushErr = none ∧
  env.pullErr2 = none ∧ env.parentCommitErr2 = none

/-! # Theorems -/

/-- Sequencing after a successful computation concatenates the traces. -/
lemma andThen_ok {x : Res} (y : Res) (hx : x.2 = none) :
    andThen x y = (x.1 ++ y.1, y.2) := by
  obtain ⟨as, e⟩ := x
  cases e with
  | none => rfl
  | some err => exact Option.noConfusion hx

/-- clean with no failing operation: the trace of its taken branch. -/
lemma cleanStep_ok (blog : PyPath) (subs : List PyPath) (p : PyPath) (env : Env)
    (h1 : env.repoOpenErr = none) (h2 : env.resetErr = none)
    (h3 : env.cleanFErr = none) (h4 : env.rmRfErr = none) :
    cleanStep blog subs p env =
      (if isSubmoduleTest blog subs p
       then [Act.openOutputRepo, Act.gitResetHard, Act.gitCleanF]
       else [Act.rmRf pelicanconf_OUTPUT_PATH], none) := by
  unfold cleanStep tryBody
  rw [h1, h2, h3, h4]
  by_cases ht : isSubmoduleTest blog subs p <;> simp [ht, opA, andThen]

/-- create_submodule with the submodule registered and no failing
operation. -/
lemma create_submodule_step_ok (env : Env) (hr : env.registered = true)
    (h5 : env.registerErr = none) (h6 : env.subUpdateErr = none) :
    create_submodule_step env =
      ((if env.moduleExists then [] else [Act.registerSubmodule]) ++
        [Act.submoduleUpdate], none) := by
  unfold create_submodule_step
  rw [hr, h5, h6]
  by_cases hm : env.moduleExists <;> simp [hm, opA, andThen]

/-- update_submodule with no failing operation. -/
lemma update_submodule_step_ok (diff : Bool) :
    update_submodule_step none diff none =
      ([Act.pullOriginMaster] ++
        (if diff then [Act.gitAddOutput, Act.parentCommit] else []), none) := by
  cases diff <;> rfl

/-- preview with a succeeding build. -/
lemma preview_step_ok (env : Env) (h : env.buildErr = none) :
    preview_step env = ([Act.pelicanBuild "publishconf.py"], none) := by
  unfold preview_step
  rw [h]
  rfl

/-- push_changes with no failing operation. -/
lemma push_changes_step_ok (env : Env) (h : env.outputCommitErr = none)
    (h2 : env.pushErr = none) :
    push_changes_step env =
      (if env.outputDirty
       then [Act.stageFiles, Act.outputCommit, Act.pushOriginMaster]
       else [Act.infoNoChanges], none) := by
  unfold push_changes_step
  rw [h, h2]
  by_cases hd : env.outputDirty <;> simp [hd, opA, andThen]

/-- C3: every publish invocation performs reset, ensure-submodule-exists,
sync-from-remote, production build, commit-and-push-if-dirty, and a second
sync-from-remote, in that strict order; when every step succeeds the run's
trace is the concatenation of the six steps' traces, none of them empty. -/
theorem publish_strict_order (blog : PyPath) (subs : List PyPath) (env : Env)
    (h : envAllOk env) :
    publishRun blog subs env =
      ((cleanStep blog subs outputPathP env).1 ++
        ((create_submodule_step env).1 ++
          ((update_submodule_step env.pullErr1 env.parentDiff1 env.parentCommitErr1).1 ++
            ((preview_step env).1 ++
              ((push_changes_step env).1 ++
                (update_submodule_step env.pullErr2 env.parentDiff2 env.parentCommitErr2).1)))),
        none) ∧
    (cleanStep blog subs outputPathP env).1 ≠ [] ∧
    (create_submodule_step env).1 ≠ [] ∧
    (update_submodule_step env.pullErr1 env.parentDiff1 env.parentCommitErr1).1 ≠ [] ∧
    (preview_step env).1 ≠ [] ∧
    (push_changes_step env).1 ≠ [] ∧
    (update_submodule_step env.pullErr2 env.parentDiff2 env.parentCommitErr2).1 ≠ [] := by
  obtain ⟨h1, h2, h3, h4, hr, h5, h6, hp1, hc1, hb, hoc, hpe, hp2, hc2⟩ := h
  have hc := cleanStep_ok blog subs outputPathP env h1 h2 h3 h4
  have hcr := create_submodule_step_ok env hr h5 h6
  have hu1 : update_submodule_step env.pullErr1 env.parentDiff1 env.parentCommitErr1 =
      ([Act.pullOriginMaster] ++
        (if env.parentDiff1 then [Act.gitAddOutput, Act.parentCommit] else []), none) := by
    rw [hp1, hc1]; exact update_submodule_step_ok env.parentDiff1
  have hu2 : update_submodule_step env.pullErr2 env.parentDiff2 env.parentCommitErr2 =
      ([Act.pullOriginMaster] ++
        (if env.parentDiff2 then [Act.gitAddOutput, Act.parentCommit] else []), none) := by
    rw [hp2, hc2]; exact update_submodule_step_ok env.parentDiff2
  have hpv := preview_step_ok env hb
  have hps := push_changes_step_ok env hoc hpe
  refine ⟨?_, ?_, ?_, ?_, ?_, ?_, ?_⟩
  · unfold publishRun
    rw [hc, hcr, hu1, hpv, hps, hu2]
    simp [andThen]
  · rw [hc]
    by_cases ht : isSubmoduleTest blog subs outputPathP <;> simp [ht]
  · rw [hcr]
    by_cases hm : env.moduleExists <;> simp [hm]
  · rw [hu1]; simp
  · rw [hpv]; simp
  · rw [hps]
    by_cases hd : env.outputDirty <;> simp [hd]
  · rw [hu2]; simp

/-- C3 witness at a concrete all-success environment. -/
theorem publish_strict_order_witness :
    envAllOk envOk ∧
    (publishRun blogP subsP envOk =
      ((cleanStep blogP subsP outputPathP envOk).1 ++
        ((create_submodule_step envOk).1 ++
          ((update_submodule_step envOk.pullErr1 envOk.parentDiff1 envOk.parentCommitErr1).1 ++
            ((preview_step envOk).1 ++
              ((push_changes_step envOk).1 ++
                (update_submodule_step envOk.pullErr2 envOk.parentDiff2 envOk.parentCommitErr2).1)))),
        none) ∧
      (cleanStep blogP subsP outputPathP envOk).1 ≠ [] ∧
      (create_submodule_step envOk).1 ≠ [] ∧
      (update_submodule_step envOk.pullErr1 envOk.parentDiff1 envOk.parentCommitErr1).1 ≠ [] ∧
      (preview_step envOk).1 ≠ [] ∧
      (push_changes_step envOk).1 ≠ [] ∧
      (update_submodule_step envOk.pullErr2 envOk.parentDiff2 envOk.parentCommitErr2).1 ≠ []) :=
  ⟨⟨rfl, rfl, rfl, rfl, rfl, rfl, rfl, rfl, rfl, rfl, rfl, rfl, rfl, rfl⟩,
    publish_strict_order blogP subsP envOk
      ⟨rfl, rfl, rfl, rfl, rfl, rfl, rfl, rfl, rfl, rfl, rfl, rfl, rfl, rfl⟩⟩

/-- C2: update_submodule is idempotent — a second call with no intervening
remote change changes nothing, and one call creates at most one parent
commit. -/
theorem update_submodule_idempotent (s : SyncState) :
    update_submodule (update_submodule s) = update_submodule s ∧
    (update_submodule s).parentCommits ≤ s.parentCommits + 1 := by
  unfold update_submodule
  by_cases h : s.parentIndexPtr = s.remoteMasterC <;> simp [h]

/-- C2 witness at a concrete synchronization state (remote ahead of the
parent's pointer). -/
theorem update_submodule_idempotent_witness :
    update_submodule (update_submodule (SyncState.mk 5 3 3 10)) =
      update_submodule (SyncState.mk 5 3 3 10) ∧
    (update_submodule (SyncState.mk 5 3 3 10)).parentCommits ≤
      (SyncState.mk 5 3 3 10).parentCommits + 1 :=
  update_submodule_idempotent (SyncState.mk 5 3 3 10)

/-- C8: calling create_submodule when the output submodule is registered
and materialized performs no registration action and reduces to the
submodule update; when the submodule is already checked out at its recorded
commit the call is a no-op on the state. -/
theorem create_submodule_existing_noop (s : SubState)
    (hreg : s.registered = true) (hmod : s.moduleExists = true) :
    create_submodule s =
      some ({ s with checkedOut := s.recorded }, [SubAct.submoduleUpdateInit]) ∧
    (∀ s2 acts, create_submodule s = some (s2, acts) → SubAct.register ∉ acts) ∧
    (s.checkedOut = s.recorded →
      create_submodule s = some (s, [SubAct.submoduleUpdateInit])) := by
  have h1 : create_submodule s =
      some ({ s with checkedOut := s.recorded }, [SubAct.submoduleUpdateInit]) := by
    simp [create_submodule, hreg, hmod]
  refine ⟨h1, ?_, ?_⟩
  · intro s2 acts h
    rw [h1] at h
    injection h with h
    injection h with hs ha
    rw [← ha]
    simp
  · intro he
    rw [h1]
    obtain ⟨a, b, c, d⟩ := s
    simp only at he
    rw [he]

/-- C8 witness at a registered, materialized, up-to-date submodule. -/
theorem create_submodule_existing_noop_witness :
    subOk.registered = true ∧ subOk.moduleExists = true ∧
    (create_submodule subOk =
      some ({ subOk with checkedOut := subOk.recorded }, [SubAct.submoduleUpdateInit]) ∧
    (∀ s2 acts, create_submodule subOk = some (s2, acts) → SubAct.register ∉ acts) ∧
    (subOk.checkedOut = subOk.recorded →
      create_submodule subOk = some (subOk, [SubAct.submoduleUpdateInit]))) :=
  ⟨rfl, rfl, create_submodule_existing_noop subOk rfl rfl⟩

/-- C1 (evaluation at the failing input): an output repository with exactly
one untracked file new.html and no modified tracked files is not dirty under
is_dirty()'s defaults, so push_changes reports "no changes", stages nothing,
and creates no commit and no push — contrary to the claimed
stage/commit/push. -/
theorem push_changes_untracked_only_no_commit :
    untracked_files scenarioC = ["new.html"] ∧
    diffIndexWorking scenarioC = [] ∧
    treesDiffer scenarioC.headTree scenarioC.index = false ∧
    is_dirty scenarioC = false ∧
    push_changes scenarioC = some (scenarioC, [PAct.infoNoChanges]) ∧
    (push_changes scenarioC).map (fun x => x.1.commitCount) = some 0 := by
  refine ⟨by decide, by decide, by decide, by decide, by decide, by decide⟩

/-- Every action of clean's try block is one of the three git operations it
performs. -/
lemma tryBody_acts (env : Env) :
    ∀ a ∈ (tryBody env).1,
      a = Act.openOutputRepo ∨ a = Act.gitResetHard ∨ a = Act.gitCleanF := by
  unfold tryBody
  cases h1 : env.repoOpenErr <;> cases h2 : env.resetErr <;>
    cases h3 : env.cleanFErr <;> simp [opA, andThen]

/-- C9: when clean's try block raises anything but NoSuchPathError while
the output path is a registered submodule, the error propagates uncaught
out of clean, the publish sequence stops there, and in particular no
pelican build is ever run. -/
theorem clean_failure_aborts_publish (blog : PyPath) (subs : List PyPath)
    (env : Env) (bs : List Act) (e : PyErr) (cfg : String)
    (hsub : isSubmoduleTest blog subs outputPathP = true)
    (htb : tryBody env = (bs, some e))
    (hne : e ≠ PyErr.noSuchPath) :
    cleanStep blog subs outputPathP env = (bs, some e) ∧
    publishRun blog subs env = (bs, some e) ∧
    Act.pelicanBuild cfg ∉ bs := by
  have hclean : cleanStep blog subs outputPathP env = (bs, some e) := by
    simp [cleanStep, hsub, htb, hne]
  refine ⟨hclean, ?_, ?_⟩
  · unfold publishRun
    rw [hclean]
    rfl
  · intro hm
    have hb : (tryBody env).1 = bs := by rw [htb]
    rcases tryBody_acts env _ (hb ▸ hm) with h | h | h <;> exact Act.noConfusion h

/-- C9 witness: the hard reset raises a git-command error; publish stops
after opening the output repository and never builds. -/
theorem clean_failure_aborts_publish_witness :
    isSubmoduleTest blogP subsP outputPathP = true ∧
    tryBody envResetFail = ([Act.openOutputRepo], some PyErr.gitCommandError) ∧
    PyErr.gitCommandError ≠ PyErr.noSuchPath ∧
    (cleanStep blogP subsP outputPathP envResetFail =
        ([Act.openOutputRepo], some PyErr.gitCommandError) ∧
      publishRun blogP subsP envResetFail =
        ([Act.openOutputRepo], some PyErr.gitCommandError) ∧
      Act.pelicanBuild "publishconf.py" ∉ [Act.openOutputRepo]) :=
  ⟨by decide, by decide, by decide,
    clean_failure_aborts_publish blogP subsP envResetFail
      [Act.openOutputRepo] PyErr.gitCommandError "publishconf.py"
      (by decide) (by decide) (by decide)⟩

/-- C6: when the resolved output path is not a registered submodule, clean
performs exactly one rm -rf of pelicanconf.OUTPUT_PATH, no git operation,
leaving the output directory absent; a following pelican build recreates it
with the generated files, and tasks.py's clean leaves it empty and
re-created. -/
theorem clean_nonsubmodule_deletes_output_tree (blog : PyPath)
    (subs : List PyPath) (p : PyPath) (env : Env) (gen : List String)
    (fs fs0 : String → Option (List String))
    (ht : isSubmoduleTest blog subs p = false)
    (h4 : env.rmRfErr = none)
    (hdir : (fs0 tasks_deploy_path).isSome = true) :
    cleanStep blog subs p env = ([Act.rmRf pelicanconf_OUTPUT_PATH], none) ∧
    (∀ a ∈ (cleanStep blog subs p env).1, isGitAct a = false) ∧
    applyTrace gen fs (cleanStep blog subs p env).1 pelicanconf_OUTPUT_PATH = none ∧
    applyTrace gen fs
        ((cleanStep blog subs p env).1 ++ [Act.pelicanBuild "publishconf.py"])
        pelicanconf_OUTPUT_PATH = some gen ∧
    tasks_clean fs0 tasks_deploy_path = some [] := by
  have hclean : cleanStep blog subs p env =
      ([Act.rmRf pelicanconf_OUTPUT_PATH], none) := by
    simp [cleanStep, ht, opA, h4]
  refine ⟨hclean, ?_, ?_, ?_, ?_⟩
  · rw [hclean]
    simp [isGitAct]
  · rw [hclean]
    simp [applyTrace, applyAct]
  · rw [hclean]
    simp [applyTrace, applyAct]
  · simp [tasks_clean, hdir]

/-- C6 witness: scenario A — no submodules are registered, the output
directory holds a.html and b.html, and clean removes it. -/
theorem clean_nonsubmodule_deletes_output_tree_witness :
    isSubmoduleTest blogP [] outputPathP = false ∧
    envOk.rmRfErr = none ∧
    (fsA tasks_deploy_path).isSome = true ∧
    (cleanStep blogP [] outputPathP envOk = ([Act.rmRf pelicanconf_OUTPUT_PATH], none) ∧
      (∀ a ∈ (cleanStep blogP [] outputPathP envOk).1, isGitAct a = false) ∧
      applyTrace ["index.html"] fsA (cleanStep blogP [] outputPathP envOk).1
        pelicanconf_OUTPUT_PATH = none ∧
      applyTrace ["index.html"] fsA
        ((cleanStep blogP [] outputPathP envOk).1 ++ [Act.pelicanBuild "publishconf.py"])
        pelicanconf_OUTPUT_PATH = some ["index.html"] ∧
      tasks_clean fsA tasks_deploy_path = some []) :=
  ⟨by decide, rfl, rfl,
    clean_nonsubmodule_deletes_output_tree blogP [] outputPathP envOk
      ["index.html"] fsA fsA (by decide) rfl rfl⟩

/-- C10: in clean's non-submodule branch the deleted directory is always
pelicanconf.OUTPUT_PATH, whatever generated_path was passed: two different
non-submodule arguments produce the same deletion, and no directory other
than OUTPUT_PATH is affected. -/
theorem clean_deletion_target_is_constant (blog : PyPath) (subs : List PyPath)
    (p q : PyPath) (env : Env) (gen : List String)
    (fs : String → Option (List String)) (d : String)
    (hp : isSubmoduleTest blog subs p = false)
    (hq : isSubmoduleTest blog subs q = false)
    (h4 : env.rmRfErr = none)
    (hd : d ≠ pelicanconf_OUTPUT_PATH) :
    (cleanStep blog subs p env).1 = [Act.rmRf pelicanconf_OUTPUT_PATH] ∧
    (cleanStep blog subs p env).1 = (cleanStep blog subs q env).1 ∧
    applyTrace gen fs (cleanStep blog subs p env).1 d = fs d := by
  have hcp : cleanStep blog subs p env =
      ([Act.rmRf pelicanconf_OUTPUT_PATH], none) := by
    simp [cleanStep, hp, opA, h4]
  have hcq : cleanStep blog subs q env =
      ([Act.rmRf pelicanconf_OUTPUT_PATH], none) := by
    simp [cleanStep, hq, opA, h4]
  refine ⟨by rw [hcp], by rw [hcp, hcq], ?_⟩
  rw [hcp]
  simp [applyTrace, applyAct, hd]

/-- Looking up the key of a member of an association list succeeds. -/
lemma lookupT_isSome_of_mem (t : Tree) (f : String × String) (hf : f ∈ t) :
    (lookupT t f.1).isSome := by
  induction t with
  | nil => cases hf
  | cons a t ih =>
    cases hf with
    | head => simp [lookupT]
    | tail _ h =>
      by_cases hk : a.1 = f.1
      · simp [lookupT, hk]
      · simp only [lookupT, if_neg hk]
        exact ih h

/-- Filtering a tree to its own tracked keys keeps everything. -/
lemma filter_lookupT_isSome_self (t : Tree) :
    t.filter (fun f => (lookupT t f.1).isSome) = t := by
  apply List.filter_eq_self.mpr
  intro f hf
  exact lookupT_isSome_of_mem t f hf

/-- Filtering a tree to the keys it does not track removes everything. -/
lemma filter_lookupT_isNone_nil (t : Tree) :
    t.filter (fun f => (lookupT t f.1).isNone) = [] := by
  apply List.filter_eq_nil_iff.mpr
  intro f hf
  have hs := lookupT_isSome_of_mem t f hf
  cases h : lookupT t f.1 with
  | none => rw [h] at hs; exact Bool.noConfusion hs
  | some c => simp [h]

/-- The reset/clean body leaves the working tree equal to the HEAD tree. -/
lemma cleanSubmoduleBody_working (r : ORepo) :
    (cleanSubmoduleBody r).working = r.headTree := by
  simp only [cleanSubmoduleBody, gitCleanF, resetHard]
  rw [List.filter_append, filter_lookupT_isSome_self]
  have h2 : (r.working.filter
      (fun f => (lookupT r.headTree f.1).isNone && (lookupT r.index f.1).isNone)).filter
        (fun f => (lookupT r.headTree f.1).isSome) = [] := by
    apply List.filter_eq_nil_iff.mpr
    intro f hf
    have hmem := List.mem_filter.mp hf
    have hnone : (lookupT r.headTree f.1).isNone = true :=
      (Bool.and_eq_true _ _ ▸ hmem.2).1
    cases h : lookupT r.headTree f.1 with
    | none => simp [h]
    | some c => rw [h] at hnone; exact Bool.noConfusion hnone
  rw [h2, List.append_nil]

/-- The reset/clean body leaves the index equal to the HEAD tree. -/
lemma cleanSubmoduleBody_index (r : ORepo) :
    (cleanSubmoduleBody r).index = r.headTree := by
  simp [cleanSubmoduleBody, gitCleanF, resetHard]

/-- C5: on a registered submodule whose repository exists, clean performs
the hard reset and git clean -f, after which the working tree is exactly
the HEAD tree — every tracked file carries its committed content and no
untracked file remains. -/
theorem clean_submodule_branch_restores (blog : PyPath) (subs : List PyPath)
    (p : PyPath) (env : Env) (r : ORepo) (n c : String)
    (hsub : isSubmoduleTest blog subs p = true)
    (h1 : env.repoOpenErr = none) (h2 : env.resetErr = none)
    (h3 : env.cleanFErr = none)
    (hn : lookupT r.headTree n = some c) :
    cleanStep blog subs p env =
      ([Act.openOutputRepo, Act.gitResetHard, Act.gitCleanF], none) ∧
    (cleanSubmoduleBody r).working = r.headTree ∧
    lookupT (cleanSubmoduleBody r).working n = some c ∧
    untracked_files (cleanSubmoduleBody r) = [] := by
  have hclean : cleanStep blog subs p env =
      ([Act.openOutputRepo, Act.gitResetHard, Act.gitCleanF], none) := by
    simp [cleanStep, tryBody, hsub, h1, h2, h3, opA, andThen]
  refine ⟨hclean, cleanSubmoduleBody_working r, ?_, ?_⟩
  · rw [cleanSubmoduleBody_working r]
    exact hn
  · unfold untracked_files untrackedL
    rw [cleanSubmoduleBody_working r, cleanSubmoduleBody_index r,
      filter_lookupT_isNone_nil]
    rfl

/-- C5 witness: scenario B — the output submodule has index.html edited and
stray.html untracked; the reset restores index.html's committed content and
removes stray.html. -/
theorem clean_submodule_branch_restores_witness :
    isSubmoduleTest blogP subsP outputPathP = true ∧
    envOk.repoOpenErr = none ∧ envOk.resetErr = none ∧ envOk.cleanFErr = none ∧
    lookupT scenarioB.headTree "index.html" = some "committed" ∧
    (cleanStep blogP subsP outputPathP envOk =
        ([Act.openOutputRepo, Act.gitResetHard, Act.gitCleanF], none) ∧
      (cleanSubmoduleBody scenarioB).working = scenarioB.headTree ∧
      lookupT (cleanSubmoduleBody scenarioB).working "index.html" = some "committed" ∧
      untracked_files (cleanSubmoduleBody scenarioB) = []) :=
  ⟨by decide, rfl, rfl, rfl, by decide,
    clean_submodule_branch_restores blogP subsP outputPathP envOk scenarioB
      "index.html" "committed" (by decide) rfl rfl rfl (by decide)⟩

/-- C10 witness: clean("site/") on a repository with no submodules deletes
"output/", not "site/". -/
theorem clean_deletion_target_is_constant_witness :
    isSubmoduleTest blogP [] pSite = false ∧
    isSubmoduleTest blogP [] outputPathP = false ∧
    envOk.rmRfErr = none ∧
    "site/" ≠ pelicanconf_OUTPUT_PATH ∧
    ((cleanStep blogP [] pSite envOk).1 = [Act.rmRf pelicanconf_OUTPUT_PATH] ∧
      (cleanStep blogP [] pSite envOk).1 = (cleanStep blogP [] outputPathP envOk).1 ∧
      applyTrace ["index.html"] fsA (cleanStep blogP [] pSite envOk).1 "site/" =
        fsA "site/") :=
  ⟨by decide, by decide, rfl, by decide,
    clean_deletion_target_is_constant blogP [] pSite outputPathP envOk
      ["index.html"] fsA "site/" (by decide) (by decide) rfl (by decide)⟩

/-- A key found in the left part of an appended association list. -/
lemma lookupT_append_some (t1 t2 : Tree) (n c : String)
    (hl : lookupT t1 n = some c) : lookupT (t1 ++ t2) n = some c := by
  induction t1 with
  | nil => exact Option.noConfusion hl
  | cons a t ih =>
    by_cases hk : a.1 = n
    · simpa [lookupT, hk] using hl
    · rw [List.cons_append]
      simp only [lookupT, if_neg hk] at hl ⊢
      exact ih hl

/-- A key absent from the left part of an appended association list. -/
lemma lookupT_append_none (t1 t2 : Tree) (n : String)
    (hl : lookupT t1 n = none) : lookupT (t1 ++ t2) n = lookupT t2 n := by
  induction t1 with
  | nil => rfl
  | cons a t ih =>
    by_cases hk : a.1 = n
    · rw [lookupT, if_pos hk] at hl
      exact Option.noConfusion hl
    · rw [lookupT, if_neg hk] at hl
      rw [List.cons_append, lookupT, if_neg hk]
      exact ih hl

/-- Overwriting the entry of another key does not change a lookup. -/
lemma lookupT_map_update (t : Tree) (m n c : String) (h : m ≠ n) :
    lookupT (t.map (fun f => if f.1 = m then (m, c) else f)) n = lookupT t n := by
  induction t with
  | nil => rfl
  | cons a t ih =>
    by_cases ha : a.1 = m
    · rw [List.map_cons, if_pos ha]
      rw [lookupT, if_neg h]
      rw [lookupT, if_neg (ha ▸ h : ¬ a.1 = n)]
      exact ih
    · rw [List.map_cons, if_neg ha]
      by_cases hn : a.1 = n
      · rw [lookupT, if_pos hn, lookupT, if_pos hn]
      · rw [lookupT, if_neg hn, lookupT, if_neg hn]
        exact ih

/-- upsert of another key does not change a lookup. -/
lemma lookupT_upsert_ne (t : Tree) (m n c : String) (h : m ≠ n) :
    lookupT (upsert t m c) n = lookupT t n := by
  unfold upsert
  by_cases hs : (lookupT t m).isSome
  · rw [if_pos hs]
    exact lookupT_map_update t m n c h
  · rw [if_neg hs]
    cases hl : lookupT t n with
    | some c2 => exact lookupT_append_some t [(m, c)] n c2 hl
    | none =>
      rw [lookupT_append_none t [(m, c)] n hl]
      simp [lookupT, h]

/-- Staging any set of paths leaves the index entry of a file that is absent
from the working tree untouched (index.add stages working-tree content, and
there is none to stage). -/
lemma stageAll_lookupT_missing (w : Tree) (ns : List String) (idx : Tree)
    (n : String) (hw : lookupT w n = none) :
    lookupT (stageAll w idx ns) n = lookupT idx n := by
  induction ns generalizing idx with
  | nil => rfl
  | cons n2 rest ih =>
    unfold stageAll
    cases hm : lookupT w n2 with
    | none => exact ih idx
    | some c2 =>
      rw [ih (upsert idx n2 c2)]
      apply lookupT_upsert_ne
      intro he
      rw [he, hw] at hm
      exact Option.noConfusion hm

/-- A tracked file is never among the untracked files. -/
lemma not_mem_untrackedL (w idx : Tree) (n c : String)
    (hidx : lookupT idx n = some c) : n ∉ untrackedL w idx := by
  intro hm
  simp only [untrackedL, List.mem_map, List.mem_filter] at hm
  obtain ⟨f, ⟨_, hnone⟩, hf1⟩ := hm
  rw [hf1, hidx] at hnone
  exact Bool.noConfusion hnone

/-- A file absent from the working tree never appears as an M entry of
index.diff(None), hence never in the modified-paths list push_changes
stages. -/
lemma not_mem_stagedModifiedList (r : ORepo) (n : String)
    (hw : lookupT r.working n = none) : n ∉ stagedModifiedList r := by
  intro hm
  simp only [stagedModifiedList, List.mem_filterMap] at hm
  obtain ⟨e, he, hif⟩ := hm
  by_cases h2 : e.2 = ChangeType.M
  · rw [if_pos h2] at hif
    simp only [diffIW, List.mem_filterMap] at he
    obtain ⟨f, _, hmatch⟩ := he
    by_cases hfn : f.1 = n
    · rw [hfn, hw] at hmatch
      have hde : some (n, ChangeType.D) = some e := hmatch
      injection hde with hde
      rw [← hde] at h2
      exact ChangeType.noConfusion h2
    · have he1 : e.1 = f.1 := by
        cases hl : lookupT r.working f.1 with
        | none =>
          rw [hl] at hmatch
          have hde : some (f.1, ChangeType.D) = some e := hmatch
          injection hde with hde
          rw [← hde]
        | some c2 =>
          rw [hl] at hmatch
          have hif2 : (if c2 ≠ f.2 then some (f.1, ChangeType.M) else none) =
              some e := hmatch
          by_cases hc : c2 ≠ f.2
          · rw [if_pos hc] at hif2
            injection hif2 with hif2
            rw [← hif2]
          · rw [if_neg hc] at hif2
            exact Option.noConfusion hif2
      have hen : e.1 = n := by injection hif
      exact hfn (he1 ▸ hen)
  · rw [if_neg h2] at hif
    exact Option.noConfusion hif

/-- Filtering-mapping a cons to nothing forces the tail to map to nothing. -/
lemma filterMap_cons_nil {α β : Type} (g : α → Option β) (a : α) (l : List α)
    (h : List.filterMap g (a :: l) = []) : List.filterMap g l = [] := by
  rw [List.filterMap_cons] at h
  cases hg : g a with
  | none => rw [hg] at h; exact h
  | some b => rw [hg] at h; exact List.noConfusion h

/-- A tracked file deleted from the working tree makes index.diff(None)
nonempty. -/
lemma diffIW_ne_nil (idx w : Tree) (n c : String)
    (hidx : lookupT idx n = some c) (hw : lookupT w n = none) :
    diffIW idx w ≠ [] := by
  induction idx with
  | nil => exact Option.noConfusion hidx
  | cons f t ih =>
    by_cases hfn : f.1 = n
    · intro hnil
      rw [diffIW, List.filterMap_cons, hfn, hw] at hnil
      exact List.noConfusion hnil
    · rw [lookupT, if_neg hfn] at hidx
      intro hnil
      exact ih hidx (filterMap_cons_nil _ f t hnil)

/-- C4: when push_changes commits on an output repository with a tracked
file deleted from the working tree but not staged, the deletion is not
staged — the file is in neither staged path list, keeps its content in the
staged index — and after the commit the new HEAD still contains the file
while the working tree does not: the deletion remains uncommitted. -/
theorem push_changes_excludes_deletion (r : ORepo) (n c : String)
    (r2 : ORepo) (acts : List PAct)
    (hidx : lookupT r.index n = some c)
    (hw : lookupT r.working n = none)
    (hrun : push_changes r = some (r2, acts)) :
    n ∉ untracked_files r ∧
    n ∉ stagedModifiedList r ∧
    acts = [PAct.stagedUntracked (untracked_files r),
      PAct.stagedModified (stagedModifiedList r), PAct.commit, PAct.push] ∧
    lookupT r2.index n = some c ∧
    lookupT r2.headTree n = some c ∧
    lookupT r2.working n = none := by
  have hdirty : is_dirty r = true := by
    unfold is_dirty diffIndexWorking
    have hne := diffIW_ne_nil r.index r.working n c hidx hw
    rcases hd : diffIW r.index r.working with _ | ⟨e, es⟩
    · exact absurd hd hne
    · simp
  have hstaged : lookupT (stagedIndex r) n = some c := by
    unfold stagedIndex
    rw [stageAll_lookupT_missing r.working _ _ n hw,
      stageAll_lookupT_missing r.working _ _ n hw]
    exact hidx
  rw [push_changes, hdirty, if_pos rfl] at hrun
  cases hgc : gitCommit { r with index := stagedIndex r } with
  | none =>
    rw [hgc] at hrun
    exact Option.noConfusion hrun
  | some r3 =>
    rw [hgc] at hrun
    injection hrun with hpair
    injection hpair with hr2 hacts
    have hr3 : r3.index = stagedIndex r ∧ r3.headTree = stagedIndex r ∧
        r3.working = r.working := by
      unfold gitCommit at hgc
      by_cases htd : treesDiffer { r with index := stagedIndex r }.headTree
          { r with index := stagedIndex r }.index
      · rw [if_pos htd] at hgc
        injection hgc with hgc
        rw [← hgc]
        exact ⟨rfl, rfl, rfl⟩
      · rw [if_neg htd] at hgc
        exact Option.noConfusion hgc
    refine ⟨not_mem_untrackedL r.working r.index n c hidx,
      not_mem_stagedModifiedList r n hw, hacts.symm, ?_, ?_, ?_⟩
    · rw [← hr2]
      show lookupT r3.index n = some c
      rw [hr3.1]
      exact hstaged
    · rw [← hr2]
      show lookupT r3.headTree n = some c
      rw [hr3.2.1]
      exact hstaged
    · rw [← hr2]
      show lookupT r3.working n = none
      rw [hr3.2.2]
      exact hw

/-- C4 witness: scenario D — old.html deleted but unstaged, new.html
untracked; push_changes commits new.html and leaves the deletion
uncommitted. -/
theorem push_changes_excludes_deletion_witness :
    lookupT scenarioD.index "old.html" = some "a" ∧
    lookupT scenarioD.working "old.html" = none ∧
    push_changes scenarioD = some (scenarioDPushed,
      [PAct.stagedUntracked ["new.html"], PAct.stagedModified [],
        PAct.commit, PAct.push]) ∧
    ("old.html" ∉ untracked_files scenarioD ∧
      "old.html" ∉ stagedModifiedList scenarioD ∧
      [PAct.stagedUntracked ["new.html"], PAct.stagedModified [],
        PAct.commit, PAct.push] =
        [PAct.stagedUntracked (untracked_files scenarioD),
          PAct.stagedModified (stagedModifiedList scenarioD),
          PAct.commit, PAct.push] ∧
      lookupT scenarioDPushed.index "old.html" = some "a" ∧
      lookupT scenarioDPushed.headTree "old.html" = some "a" ∧
      lookupT scenarioDPushed.working "old.html" = none) :=
  ⟨by decide, by decide, by decide,
    push_changes_excludes_deletion scenarioD "old.html" "a" scenarioDPushed
      [PAct.stagedUntracked ["new.html"], PAct.stagedModified [],
        PAct.commit, PAct.push]
      (by decide) (by decide) (by decide)⟩

/-- normpath drops a trailing slash (a trailing empty component). -/
lemma normpath_trailing_empty (a : Bool) (cs : List String) :
    normpath ⟨a, cs ++ [""]⟩ = normpath ⟨a, cs⟩ := by
  unfold normpath
  simp only [List.foldl_append, List.foldl_cons, List.foldl_nil]
  congr 1

/-- The resolved output path is normalization-invariant under a trailing
slash. -/
lemma full_norm_trailing (blog : PyPath) (a : Bool) (cs : List String) :
    normpath (full_path blog ⟨a, cs ++ [""]⟩) =
      normpath (full_path blog ⟨a, cs⟩) := by
  unfold full_path pyJoin
  cases a with
  | true =>
    simp only
    exact normpath_trailing_empty true cs
  | false =>
    simp only
    rw [← List.append_assoc]
    exact normpath_trailing_empty blog.absolute (blog.comps ++ cs)

/-- C7 (amended): the submodule-membership test of clean is invariant under
a trailing slash on the argument and under giving the argument relative
versus absolute (resolved against the blog directory), because normpath is
applied to both sides of the comparison.  (It is not invariant under symlink
aliasing — see the counterexample.) -/
theorem submodule_test_path_normalization (blog : PyPath) (subs : List PyPath)
    (a : Bool) (cs : List String) (hb : blog.absolute = true) :
    isSubmoduleTest blog subs ⟨a, cs ++ [""]⟩ =
      isSubmoduleTest blog subs ⟨a, cs⟩ ∧
    isSubmoduleTest blog subs ⟨true, blog.comps ++ cs⟩ =
      isSubmoduleTest blog subs ⟨false, cs⟩ := by
  obtain ⟨ba, bc⟩ := blog
  simp only at hb
  subst hb
  constructor
  · unfold isSubmoduleTest
    rw [full_norm_trailing ⟨true, bc⟩ a cs]
  · unfold isSubmoduleTest
    have h : full_path ⟨true, bc⟩ ⟨true, bc ++ cs⟩ =
        full_path ⟨true, bc⟩ ⟨false, cs⟩ := by
      simp [full_path, pyJoin]
    rw [h]

/-- C7 witness: the invariances at the repository's concrete paths. -/
theorem submodule_test_path_normalization_witness :
    blogP.absolute = true ∧
    (isSubmoduleTest blogP subsP ⟨false, ["output"] ++ [""]⟩ =
        isSubmoduleTest blogP subsP ⟨false, ["output"]⟩ ∧
      isSubmoduleTest blogP subsP ⟨true, blogP.comps ++ ["output"]⟩ =
        isSubmoduleTest blogP subsP ⟨false, ["output"]⟩) :=
  ⟨rfl, submodule_test_path_normalization blogP subsP false ["output"] rfl⟩

/-- C7 counterexample: normpath does not resolve symlinks, so two paths
denoting the same directory through a symbolic link (equal under realpath)
are classified differently by the membership test — a symlink-induced false
negative, refuting the claim's symlink-invariance part. -/
theorem submodule_test_symlink_false_negative :
    realpath1 linkSrc linkDst (full_path blogP pLink) =
      realpath1 linkSrc linkDst (full_path blogP pOut) ∧
    isSubmoduleTest blogP subsP pOut = true ∧
    isSubmoduleTest blogP subsP pLink = false := by
  refine ⟨by decide, by decide, by decide⟩

end Blog
